import Mathlib

/-!
Shallow embedding of `hystrix.go` (package hystrix): the command executor
`Go`, the synchronous wrapper `Do`, and the resolution helper `tryFallback`.

`Go` spawns two goroutines over shared per-call state (`stop` guarded by
`stopMutex`, `ticket` guarded by `ticketMutex`, a `sync.Once` for the
fallback, a buffered result channel `errChan`, and the circuit's event
stream).  We model a single call as a list of atomic actions on an explicit
state record: each code region that holds a mutex for its whole duration is
one atomic action, and regions that touch no shared resolution state are
their own actions.  The deadline goroutine contributes at most two actions
(the timeout block and the deferred ticket `Return`), which may interleave
at any position among the worker's actions, subject to program order.  A
schedule picks the interleaving; theorems quantify over all schedules.
-/

namespace Hystrix

/-- Outcome event kinds passed to `circuit.ReportEvent` in `hystrix.go`.
One constructor per distinct string tag in the source: "short-circuit",
"rejected", "failure", "success", "timeout", "fallback-failure",
"fallback-success". -/
inductive EventKind where
  | shortCircuit
  | rejected
  | failure
  | success
  | timeoutEv
  | fallbackFailure
  | fallbackSuccess
deriving DecidableEq

/-- Error values surfaced by the executor: the sentinel `CircuitError`s
(`ErrCircuitOpen`, `ErrMaxConcurrency`, `ErrTimeout`), arbitrary errors
returned by the wrapped operation or the fallback (`someErr n`), and the
composite built by `fmt.Errorf("fallback failed with '%v'. run error was
'%v'", fallbackErr, err)`, which names both errors. -/
inductive GoErr where
  | circuitOpen
  | maxConcurrency
  | timedOut
  | someErr (n : Nat)
  | fallbackFailed (fallbackErr cause : GoErr)
deriving DecidableEq

/-- The inputs that determine one call to `Go`:
* `circuitErr`: result of `GetCircuit(name)` (`some e` = lookup failed);
* `allow`: what `circuit.AllowRequest()` returns for this call;
* `poolFreeInit`: tickets free in `circuit.executorPool.Tickets` at the
  call's start (the non-blocking receive succeeds iff this is positive);
* `runErr`: what `run()` returns once executed;
* `fallback`: the fallback function, `none` when the caller passed `nil`;
* `sync`: true when the call comes through `Do`, whose wrappers send on the
  `done` channel after a successful `run` or a successful fallback. -/
structure CallParams where
  circuitErr : Option GoErr
  allow : Bool
  poolFreeInit : Nat
  runErr : Option GoErr
  fallback : Option (GoErr → Option GoErr)
  sync : Bool

/-- Shared state of one call, plus observation ("ghost") fields.
* `stop`: the `stop` flag guarded by `stopMutex`;
* `onceDone`: whether the `fallbackOnce` body has run;
* `onceArg`: ghost — the error the once body received when it ran;
* `ticket`: the worker's `ticket` variable (`true` = non-nil);
* `poolFree`: free tickets in the pool;
* `events`: sequence of `circuit.ReportEvent` calls;
* `writes`: values sent on `errChan` (capacity 1; we prove ≤ 1 write);
* `ranRun`: ghost — whether `run()` executed;
* `plainSuccess`: ghost — the worker resolved a no-error outcome (the path
  that never touches the fallback);
* `doneSends`: sends on `Do`'s `done` channel;
* `returnCalls`: arguments of `executorPool.Return` calls (`true` = the
  ticket, `false` = nil). -/
structure S where
  stop : Bool
  onceDone : Bool
  onceArg : Option GoErr
  ticket : Bool
  poolFree : Nat
  events : List EventKind
  writes : List GoErr
  ranRun : Bool
  plainSuccess : Bool
  doneSends : Nat
  returnCalls : List Bool
deriving DecidableEq

/-- Initial per-call state. -/
def initS (p : CallParams) : S :=
  ⟨false, false, none, false, p.poolFreeInit, [], [], false, false, 0, []⟩

/-- `circuit.ReportEvent(kind, ...)`. -/
def report (k : EventKind) (s : S) : S := { s with events := s.events ++ [k] }

/-- `errChan <- e`. -/
def send (e : GoErr) (s : S) : S := { s with writes := s.writes ++ [e] }

/-- `tryFallback(fallbackOnce, circuit, start, runDuration, fallback, err)`.
Inside `once.Do`: with no fallback it forwards the original error; otherwise
it runs the fallback, reporting "fallback-failure" and returning the
composite error, or reporting "fallback-success" and returning nil.  When
the once body has already run (`ran == false` in the source), it returns
nil.  When `p.sync` is set, the fallback is `Do`'s wrapper `f`, which sends
on `done` after the underlying fallback returns nil. -/
def tryFallback (p : CallParams) (e : GoErr) (s : S) : S × Option GoErr :=
  if s.onceDone then (s, none)
  else
    let s1 := { s with onceDone := true, onceArg := some e }
    match p.fallback with
    | none => (s1, some e)
    | some fb =>
      match fb e with
      | some fbErr =>
        ({ s1 with events := s1.events ++ [EventKind.fallbackFailure] },
         some (GoErr.fallbackFailed fbErr e))
      | none =>
        let s2 := if p.sync then { s1 with doneSends := s1.doneSends + 1 } else s1
        ({ s2 with events := s2.events ++ [EventKind.fallbackSuccess] }, none)

/-- The `err := tryFallback(...); if err != nil { errChan <- err }` pattern
shared by the short-circuit, rejected and timeout paths. -/
def resolveWith (p : CallParams) (e : GoErr) (s : S) : S :=
  match tryFallback p e s with
  | (s1, some err) => send err s1
  | (s1, none) => s1

/-- Worker short-circuit branch (`!circuit.AllowRequest()`), one atomic
action: it holds `stopMutex` for the whole region. -/
def scBlock (p : CallParams) (s : S) : S :=
  if s.stop then s
  else
    resolveWith p GoErr.circuitOpen
      (report EventKind.shortCircuit { s with stop := true })

/-- `circuit.ReportEvent("rejected", start, 0)` on the default branch of the
ticket select.  Note the source takes neither `stopMutex` nor the `stop`
flag on this path. -/
def rejReport (s : S) : S := report EventKind.rejected s

/-- The rejected path's `tryFallback(..., ErrMaxConcurrency)` plus the
conditional `errChan` send.  Again: no `stop` guard in the source. -/
def rejResolve (p : CallParams) (s : S) : S :=
  resolveWith p GoErr.maxConcurrency s

/-- `case ticket = <-circuit.executorPool.Tickets`, under `ticketMutex`. -/
def acquireStep (s : S) : S :=
  if 0 < s.poolFree then { s with poolFree := s.poolFree - 1, ticket := true }
  else s

/-- `runErr := run()`.  Touches no shared resolution state.  When `p.sync`,
`Do`'s wrapper `r` sends on `done` after a nil-error run. -/
def runStep (p : CallParams) (s : S) : S :=
  let s1 := { s with ranRun := true }
  if p.sync ∧ p.runErr = none then { s1 with doneSends := s1.doneSends + 1 }
  else s1

/-- The worker's post-run region, one atomic action under `stopMutex`.
On a run error it reports "failure" and resolves via fallback; the source
returns early only when `tryFallback` yields a non-nil error, so a
successful fallback falls through to the "success" report (the missing
`return` in the source). -/
def postBlock (p : CallParams) (s : S) : S :=
  if s.stop then s
  else
    let s1 := { s with stop := true }
    match p.runErr with
    | some e =>
      let s2 := report EventKind.failure s1
      match tryFallback p e s2 with
      | (s3, some err) => send err s3
      | (s3, none) => report EventKind.success s3
    | none => report EventKind.success { s1 with plainSuccess := true }

/-- The deadline goroutine's `case <-timer.C` region, one atomic action
under `stopMutex`. -/
def timeoutBlock (p : CallParams) (s : S) : S :=
  if s.stop then s
  else
    resolveWith p GoErr.timedOut
      (report EventKind.timeoutEv { s with stop := true })

/-- The deadline goroutine's deferred
`ticketMutex.Lock(); circuit.executorPool.Return(ticket); ticketMutex.Unlock()`.
Modelled from the spec: the pool's `Return` itself is not under `src/`; per
the spec's Admission Pool contract a returned token goes back to the pool,
and a nil argument (no ticket acquired yet) returns nothing. -/
def releaseStep (s : S) : S :=
  let s1 := { s with returnCalls := s.returnCalls ++ [s.ticket] }
  if s.ticket then { s1 with poolFree := s1.poolFree + 1 } else s1

/-- The worker goroutine's atomic actions, in program order.  The branch is
determined by `allow` and by whether a ticket is free: the pool's content
at acquisition time equals `poolFreeInit`, because the only other action
touching the pool (`releaseStep`) adds a ticket back only when the worker's
`ticket` variable is already set. -/
def workerActs (p : CallParams) : List (S → S) :=
  if p.allow then
    if 0 < p.poolFreeInit then [acquireStep, runStep p, postBlock p]
    else [rejReport, rejResolve p]
  else [scBlock p]

/-- A schedule: whether the deadline's select takes the timer branch, how
many worker actions run before the timeout block, and how many further
worker actions run between the timeout block and the deferred `Return`.
When the select takes the `finished` branch instead, the `Return` runs
after the whole worker body (the worker sends `finished` via `defer`). -/
structure Sched where
  timerFires : Bool
  i : Nat
  k : Nat

/-- Insert an element after `n` positions (at the end when `n` exceeds the
length). -/
def insAt {α : Type} : Nat → α → List α → List α
  | 0, a, l => a :: l
  | _ + 1, a, [] => [a]
  | n + 1, a, b :: l => b :: insAt n a l

/-- The full interleaved action sequence of one call under a schedule. -/
def callActs (p : CallParams) (q : Sched) : List (S → S) :=
  let ws := workerActs p
  if q.timerFires then
    insAt (q.i + 1 + q.k) releaseStep (insAt q.i (timeoutBlock p) ws)
  else ws ++ [releaseStep]

/-- Run a list of atomic actions left to right. -/
def execActs (acts : List (S → S)) (s : S) : S :=
  acts.foldl (fun s a => a s) s

/-- One complete call to `Go` under schedule `q`: when `GetCircuit` fails
the error is sent on `errChan` and nothing else happens; otherwise both
goroutines run to completion in the interleaving `q` describes. -/
def goExec (p : CallParams) (q : Sched) : S :=
  match p.circuitErr with
  | some e => send e (initS p)
  | none => execActs (callActs p q) (initS p)

/-- `Do`'s final `select { case <-done: return nil; case err := <-errChan:
return err }`, evaluated against the call's completed state: `none` means
neither channel ever yields (Do would block forever); when both are ready
Go's select picks either branch, modelled by `pick`. -/
def doSelect (pick : Bool) (s : S) : Option (Option GoErr) :=
  match s.writes, s.doneSends with
  | [], 0 => none
  | [], _ + 1 => some none
  | e :: _, 0 => some (some e)
  | e :: _, _ + 1 => some (if pick then none else some e)

/-- Derived (statement-level) description of what the once body produces
for triggering error `e`: the delivered error, if any. -/
def onceOutcome (p : CallParams) (e : GoErr) : Option GoErr :=
  match p.fallback with
  | none => some e
  | some fb =>
    match fb e with
    | none => none
    | some fbErr => some (GoErr.fallbackFailed fbErr e)

end Hystrix

namespace Hystrix

theorem insAt_nil {α : Type} (n : Nat) (a : α) : insAt n a [] = [a] := by
  cases n <;> rfl

theorem tryFallback_fst_stop (p : CallParams) (e : GoErr) (s : S) :
    ((tryFallback p e s).1).stop = s.stop := by
  unfold tryFallback
  by_cases h : s.onceDone
  · simp [h]
  · cases hf : p.fallback with
    | none => simp [h, hf]
    | some fb =>
      cases hfe : fb e with
      | some x => simp [h, hf, hfe]
      | none => by_cases hs : p.sync <;> simp [h, hf, hfe, hs]

theorem resolveWith_stop (p : CallParams) (e : GoErr) (s : S) :
    (resolveWith p e s).stop = s.stop := by
  have h0 := tryFallback_fst_stop p e s
  unfold resolveWith
  rcases h : tryFallback p e s with ⟨s1, r⟩
  rw [h] at h0
  cases r <;> simp [send] <;> exact h0

theorem scBlock_stop (p : CallParams) (s : S) : (scBlock p s).stop = true := by
  unfold scBlock
  by_cases h : s.stop
  · simp [h]
  · simp [h, resolveWith_stop, report]

theorem timeoutBlock_stop (p : CallParams) (s : S) :
    (timeoutBlock p s).stop = true := by
  unfold timeoutBlock
  by_cases h : s.stop
  · simp [h]
  · simp [h, resolveWith_stop, report]

theorem postBlock_stop (p : CallParams) (s : S) : (postBlock p s).stop = true := by
  unfold postBlock
  by_cases h : s.stop
  · simp [h]
  · cases hr : p.runErr with
    | none => simp [h, hr, report]
    | some e =>
      have h0 := tryFallback_fst_stop p e (report EventKind.failure { s with stop := true })
      simp only [h, if_false, hr, Bool.false_eq_true]
      rcases htf : tryFallback p e (report EventKind.failure { s with stop := true }) with ⟨s1, r⟩
      rw [htf] at h0
      simp only [report] at h0
      cases r <;> simp [report, send] <;> exact h0

theorem timeoutBlock_of_stop (p : CallParams) (s : S) (h : s.stop = true) :
    timeoutBlock p s = s := by
  simp [timeoutBlock, h]

theorem postBlock_of_stop (p : CallParams) (s : S) (h : s.stop = true) :
    postBlock p s = s := by
  simp [postBlock, h]

/-- Characterization of a short-circuited call (`AllowRequest` false): the
only interleavings are "deadline resolves first" (timer branch taken before
any worker action) and "worker resolves first"; the deferred ticket
`Return` commutes to the end in either case. -/
theorem goExec_sc (p : CallParams) (q : Sched)
    (hc : p.circuitErr = none) (ha : p.allow = false) :
    goExec p q =
      if q.timerFires = true ∧ q.i = 0 then
        execActs [timeoutBlock p, scBlock p, releaseStep] (initS p)
      else
        execActs [scBlock p, releaseStep] (initS p) := by
  rcases q with ⟨t, i, k⟩
  cases t with
  | false =>
    simp [goExec, hc, callActs, workerActs, ha]
  | true =>
    cases i with
    | zero =>
      cases k with
      | zero =>
        simp only [goExec, hc, callActs, workerActs, ha, Bool.false_eq_true,
          if_false, if_true, insAt, true_and, execActs, List.foldl]
        rcases hf : p.fallback with _ | fb
        · simp [timeoutBlock, initS, resolveWith, tryFallback, hf, report, send,
            releaseStep, scBlock]
        · rcases hfe : fb GoErr.timedOut with _ | x
          · by_cases hs : p.sync <;>
              simp [timeoutBlock, initS, resolveWith, tryFallback, hf, hfe, hs,
                report, send, releaseStep, scBlock]
          · simp [timeoutBlock, initS, resolveWith, tryFallback, hf, hfe,
              report, send, releaseStep, scBlock]
      | succ k' =>
        have h2 : insAt (0 + 1 + (k' + 1)) releaseStep
            (insAt 0 (timeoutBlock p) [scBlock p]) =
            [timeoutBlock p, scBlock p, releaseStep] := by
          have h3 : 0 + 1 + (k' + 1) = (k' + 1) + 1 := by omega
          rw [h3]
          simp [insAt, insAt_nil]
        simp only [goExec, hc, callActs, workerActs, ha, Bool.false_eq_true,
          if_false, if_true, h2, true_and, execActs, List.foldl]
        simp only [Nat.add_eq, Nat.zero_add, Nat.add_comm 1 k']
        simp [insAt, insAt_nil, execActs, List.foldl]
    | succ i' =>
      have h1 : insAt (i' + 1) (timeoutBlock p) [scBlock p] =
          [scBlock p, timeoutBlock p] := by
        simp [insAt, insAt_nil]
      have h2 : insAt (i' + 1 + 1 + k) releaseStep [scBlock p, timeoutBlock p] =
          [scBlock p, timeoutBlock p, releaseStep] := by
        have h3 : i' + 1 + 1 + k = (i' + k) + 1 + 1 := by omega
        rw [h3]
        simp [insAt, insAt_nil]
      simp only [goExec, hc, callActs, workerActs, ha, Bool.false_eq_true,
        if_false, if_true, h1, h2]
      simp only [Nat.succ_ne_zero, and_false, if_false, execActs, List.foldl]
      rw [timeoutBlock_of_stop p _ (scBlock_stop p _)]

end Hystrix

namespace Hystrix

theorem insAt_length {α : Type} (n : Nat) (a : α) (l : List α) :
    (insAt n a l).length = l.length + 1 := by
  induction l generalizing n with
  | nil => rw [insAt_nil]; rfl
  | cons b t ih =>
    cases n with
    | zero => rfl
    | succ m => simp [insAt, ih]

theorem insAt_min' {α : Type} (n : Nat) (a : α) (l : List α) :
    insAt n a l = insAt (min n l.length) a l := by
  induction l generalizing n with
  | nil => rw [insAt_nil, insAt_nil]
  | cons b t ih =>
    cases n with
    | zero => rfl
    | succ m =>
      show b :: insAt m a t = insAt (min (m + 1) (t.length + 1)) a (b :: t)
      rw [Nat.succ_min_succ]
      show b :: insAt m a t = b :: insAt (min m t.length) a t
      rw [← ih m]

theorem workerActs_length_le (p : CallParams) : (workerActs p).length ≤ 3 := by
  unfold workerActs
  by_cases ha : p.allow <;> by_cases hp : 0 < p.poolFreeInit <;> simp [ha, hp]

theorem callActs_clamp (p : CallParams) (q : Sched) :
    callActs p q = callActs p ⟨q.timerFires, min q.i 3, min q.k 4⟩ := by
  rcases q with ⟨t, i, k⟩
  cases t with
  | false => rfl
  | true =>
    show insAt (i + 1 + k) releaseStep (insAt i (timeoutBlock p) (workerActs p)) =
      insAt (min i 3 + 1 + min k 4) releaseStep
        (insAt (min i 3) (timeoutBlock p) (workerActs p))
    have hw := workerActs_length_le p
    have h1 : insAt i (timeoutBlock p) (workerActs p) =
        insAt (min i 3) (timeoutBlock p) (workerActs p) := by
      rw [insAt_min' i, insAt_min' (min i 3)]
      congr 1
      omega
    rw [h1]
    rw [insAt_min' (i + 1 + k), insAt_min' (min i 3 + 1 + min k 4), insAt_length]
    congr 1
    omega

theorem goExec_clamp (p : CallParams) (q : Sched) :
    goExec p q = goExec p ⟨q.timerFires, min q.i 3, min q.k 4⟩ := by
  unfold goExec
  rcases hc : p.circuitErr with _ | e
  · simp only [hc]
    rw [callActs_clamp]
  · simp [hc]

end Hystrix


namespace Hystrix

/-- The resolution-visible part of the call state: everything except the
pool bookkeeping (`ticket`, `poolFree`, `returnCalls`), which only the
ticket acquisition and the deferred `Return` touch. -/
structure Obs where
  stop : Bool
  onceDone : Bool
  onceArg : Option GoErr
  events : List EventKind
  writes : List GoErr
  ranRun : Bool
  plainSuccess : Bool
  doneSends : Nat
deriving DecidableEq

/-- Project the resolution-visible fields. -/
def obs (s : S) : Obs :=
  ⟨s.stop, s.onceDone, s.onceArg, s.events, s.writes, s.ranRun,
    s.plainSuccess, s.doneSends⟩

/-- An action whose effect on the resolution-visible fields depends only on
the resolution-visible fields. -/
def ObsRespect (a : S → S) : Prop :=
  ∀ s1 s2 : S, obs s1 = obs s2 → obs (a s1) = obs (a s2)

end Hystrix

namespace Hystrix

theorem obs_invisible_respect {a : S → S} (h : ∀ s, obs (a s) = obs s) :
    ObsRespect a := by
  intro s1 s2 hs
  rw [h s1, h s2]
  exact hs

theorem obs_report {s1 s2 : S} (k : EventKind) (h : obs s1 = obs s2) :
    obs (report k s1) = obs (report k s2) := by
  simp only [obs, Obs.mk.injEq] at h ⊢
  simp [report, h.1, h.2.1, h.2.2.1, h.2.2.2.1, h.2.2.2.2.1, h.2.2.2.2.2.1,
    h.2.2.2.2.2.2.1, h.2.2.2.2.2.2.2]

theorem obs_send {s1 s2 : S} (e : GoErr) (h : obs s1 = obs s2) :
    obs (send e s1) = obs (send e s2) := by
  simp only [obs, Obs.mk.injEq] at h ⊢
  simp [send, h.1, h.2.1, h.2.2.1, h.2.2.2.1, h.2.2.2.2.1, h.2.2.2.2.2.1,
    h.2.2.2.2.2.2.1, h.2.2.2.2.2.2.2]

theorem obs_tryFallback (p : CallParams) (e : GoErr) {s1 s2 : S}
    (h : obs s1 = obs s2) :
    obs (tryFallback p e s1).1 = obs (tryFallback p e s2).1 ∧
      (tryFallback p e s1).2 = (tryFallback p e s2).2 := by
  have h' := h
  simp only [obs, Obs.mk.injEq] at h'
  obtain ⟨h1, h2, h3, h4, h5, h6, h7, h8⟩ := h'
  unfold tryFallback
  rw [h2]
  by_cases hd : s2.onceDone
  · simp [hd, h]
  · rcases hf : p.fallback with _ | fb
    · simp [hd, hf, obs, h1, h4, h5, h6, h7, h8]
    · rcases hfe : fb e with _ | x
      · by_cases hs : p.sync <;>
          simp [hd, hf, hfe, hs, obs, h1, h4, h5, h6, h7, h8]
      · simp [hd, hf, hfe, obs, h1, h4, h5, h6, h7, h8]

theorem obs_resolveWith (p : CallParams) (e : GoErr) {s1 s2 : S}
    (h : obs s1 = obs s2) :
    obs (resolveWith p e s1) = obs (resolveWith p e s2) := by
  have htf := obs_tryFallback p e h
  unfold resolveWith
  rcases ht1 : tryFallback p e s1 with ⟨x1, r1⟩
  rcases ht2 : tryFallback p e s2 with ⟨x2, r2⟩
  rw [ht1, ht2] at htf
  obtain ⟨hx, hr⟩ := htf
  simp only at hx hr
  subst hr
  cases r1 with
  | none => exact hx
  | some err => exact obs_send err hx

theorem obs_stopField {s1 s2 : S} (h : obs s1 = obs s2) : s1.stop = s2.stop := by
  simpa [obs, Obs.mk.injEq] using congrArg Obs.stop h

theorem obs_set_stop {s1 s2 : S} (h : obs s1 = obs s2) (b : Bool) :
    obs { s1 with stop := b } = obs { s2 with stop := b } := by
  simp only [obs, Obs.mk.injEq] at h ⊢
  exact ⟨trivial, h.2.1, h.2.2.1, h.2.2.2.1, h.2.2.2.2.1, h.2.2.2.2.2.1,
    h.2.2.2.2.2.2.1, h.2.2.2.2.2.2.2⟩

theorem scBlock_respect (p : CallParams) : ObsRespect (scBlock p) := by
  intro s1 s2 h
  unfold scBlock
  rw [obs_stopField h]
  by_cases hd : s2.stop
  · simp [hd, h]
  · simp only [hd, Bool.false_eq_true, if_false]
    exact obs_resolveWith p _ (obs_report _ (obs_set_stop h true))

theorem rejReport_respect : ObsRespect rejReport := by
  intro s1 s2 h
  exact obs_report _ h

theorem rejResolve_respect (p : CallParams) : ObsRespect (rejResolve p) := by
  intro s1 s2 h
  exact obs_resolveWith p _ h

theorem runStep_respect (p : CallParams) : ObsRespect (runStep p) := by
  intro s1 s2 h
  simp only [obs, Obs.mk.injEq] at h
  unfold runStep
  by_cases hs : p.sync ∧ p.runErr = none <;>
    simp [hs, obs, h.1, h.2.1, h.2.2.1, h.2.2.2.1, h.2.2.2.2.1, h.2.2.2.2.2.1,
      h.2.2.2.2.2.2.1, h.2.2.2.2.2.2.2]

theorem timeoutBlock_respect (p : CallParams) : ObsRespect (timeoutBlock p) := by
  intro s1 s2 h
  unfold timeoutBlock
  rw [obs_stopField h]
  by_cases hd : s2.stop
  · simp [hd, h]
  · simp only [hd, Bool.false_eq_true, if_false]
    exact obs_resolveWith p _ (obs_report _ (obs_set_stop h true))

theorem postBlock_respect (p : CallParams) : ObsRespect (postBlock p) := by
  intro s1 s2 h
  unfold postBlock
  rw [obs_stopField h]
  by_cases hd : s2.stop
  · simp [hd, h]
  · simp only [hd, Bool.false_eq_true, if_false]
    rcases hr : p.runErr with _ | e
    · simp only []
      have h' := obs_set_stop h true
      simp only [obs, Obs.mk.injEq] at h'
      simp [report, obs, Obs.mk.injEq, h'.1, h'.2.1, h'.2.2.1, h'.2.2.2.1,
        h'.2.2.2.2.1, h'.2.2.2.2.2.1, h'.2.2.2.2.2.2.1, h'.2.2.2.2.2.2.2]
    · simp only []
      have hrep := obs_report EventKind.failure (obs_set_stop h true)
      have htf := obs_tryFallback p e hrep
      rcases ht1 : tryFallback p e (report EventKind.failure { s1 with stop := true })
        with ⟨x1, r1⟩
      rcases ht2 : tryFallback p e (report EventKind.failure { s2 with stop := true })
        with ⟨x2, r2⟩
      rw [ht1, ht2] at htf
      obtain ⟨hx, hrr⟩ := htf
      simp only at hx hrr
      subst hrr
      cases r1 with
      | none => exact obs_report _ hx
      | some err => exact obs_send err hx

theorem obs_acquireStep (s : S) : obs (acquireStep s) = obs s := by
  unfold acquireStep
  by_cases h : 0 < s.poolFree <;> simp [h, obs]

theorem obs_releaseStep (s : S) : obs (releaseStep s) = obs s := by
  unfold releaseStep
  by_cases h : s.ticket <;> simp [h, obs]

theorem acquireStep_respect : ObsRespect acquireStep :=
  obs_invisible_respect obs_acquireStep

theorem execActs_obs {l : List (S → S)} (hl : ∀ a ∈ l, ObsRespect a)
    {s1 s2 : S} (h : obs s1 = obs s2) :
    obs (execActs l s1) = obs (execActs l s2) := by
  induction l generalizing s1 s2 with
  | nil => exact h
  | cons b t ih =>
    show obs (execActs t (b s1)) = obs (execActs t (b s2))
    exact ih (fun a ha => hl a (List.mem_cons_of_mem b ha))
      (hl b (List.mem_cons_self b t) s1 s2 h)

end Hystrix

namespace Hystrix

theorem execActs_insAt_invisible {l : List (S → S)} (hl : ∀ a ∈ l, ObsRespect a)
    {g : S → S} (hg : ∀ s, obs (g s) = obs s) (j : Nat) (s : S) :
    obs (execActs (insAt j g l) s) = obs (execActs l s) := by
  induction l generalizing j s with
  | nil =>
    rw [insAt_nil]
    exact hg s
  | cons b t ih =>
    cases j with
    | zero =>
      show obs (execActs (b :: t) (g s)) = obs (execActs (b :: t) s)
      exact execActs_obs hl (hg s)
    | succ m =>
      show obs (execActs (insAt m g t) (b s)) = obs (execActs t (b s))
      exact ih (fun a ha => hl a (List.mem_cons_of_mem b ha)) m (b s)

theorem execActs_append_invisible {l : List (S → S)}
    {g : S → S} (hg : ∀ s, obs (g s) = obs s) (s : S) :
    obs (execActs (l ++ [g]) s) = obs (execActs l s) := by
  have h : execActs (l ++ [g]) s = g (execActs l s) := by
    simp [execActs, List.foldl_append]
  rw [h, hg]

theorem workerActs_respect (p : CallParams) :
    ∀ a ∈ workerActs p, ObsRespect a := by
  intro a ha
  unfold workerActs at ha
  by_cases hA : p.allow
  · simp only [hA, if_true] at ha
    by_cases hb : 0 < p.poolFreeInit
    · simp [hb] at ha
      rcases ha with h | h | h
      · subst h; exact acquireStep_respect
      · subst h; exact runStep_respect p
      · subst h; exact postBlock_respect p
    · simp [hb] at ha
      rcases ha with h | h
      · subst h; exact rejReport_respect
      · subst h; exact rejResolve_respect p
  · simp [hA] at ha
    subst ha; exact scBlock_respect p

theorem mem_insAt {α : Type} {y a : α} :
    ∀ {n : Nat} {l : List α}, y ∈ insAt n a l → y = a ∨ y ∈ l := by
  intro n l
  induction l generalizing n with
  | nil =>
    rw [insAt_nil]
    intro h
    simp at h
    exact Or.inl h
  | cons b t ih =>
    cases n with
    | zero =>
      intro h
      rcases List.mem_cons.mp h with h' | h'
      · exact Or.inl h'
      · exact Or.inr h'
    | succ m =>
      intro h
      rcases List.mem_cons.mp h with h' | h'
      · refine Or.inr ?_
        rw [h']
        exact List.mem_cons_self b t
      · rcases ih h' with h2 | h2
        · exact Or.inl h2
        · exact Or.inr (List.mem_cons_of_mem b h2)

/-- Resolution-visible behaviour of a timed call: the position of the
deferred ticket `Return` is irrelevant, so only the timeout block's
position among the worker's actions remains. -/
theorem obs_goExec_timer (p : CallParams) (q : Sched) (hc : p.circuitErr = none)
    (ht : q.timerFires = true) :
    obs (goExec p q) =
      obs (execActs (insAt (min q.i 3) (timeoutBlock p) (workerActs p))
        (initS p)) := by
  rw [goExec_clamp p q, ht]
  unfold goExec
  simp only [hc]
  show obs (execActs (insAt (min q.i 3 + 1 + min q.k 4) releaseStep
      (insAt (min q.i 3) (timeoutBlock p) (workerActs p))) (initS p)) = _
  refine execActs_insAt_invisible ?_ obs_releaseStep _ _
  intro a ha
  rcases mem_insAt ha with h | h
  · subst h; exact timeoutBlock_respect p
  · exact workerActs_respect p a h

/-- Resolution-visible behaviour of a call whose deadline select takes the
worker's `finished` signal: just the worker's actions. -/
theorem obs_goExec_noTimer (p : CallParams) (q : Sched) (hc : p.circuitErr = none)
    (ht : q.timerFires = false) :
    obs (goExec p q) = obs (execActs (workerActs p) (initS p)) := by
  rw [goExec_clamp p q, ht]
  unfold goExec
  simp only [hc]
  show obs (execActs (workerActs p ++ [releaseStep]) (initS p)) = _
  exact execActs_append_invisible obs_releaseStep _

end Hystrix

namespace Hystrix

set_option maxRecDepth 4000 in
/-- C4: in every interleaving of the worker and deadline activities, the
result channel of `Go` carries at most one error value; when the circuit
lookup succeeds, exactly one resolution action happens per call — either
the fallback once-body runs (`onceDone`, the fallback-resolution case) or
the worker resolves a no-error outcome (`plainSuccess`) — never both and
never neither, and a plain success never writes to the channel. -/
theorem go_result_channel_once (p : CallParams) (q : Sched) :
    (goExec p q).writes.length ≤ 1 ∧
      (p.circuitErr = none →
        (goExec p q).onceDone ≠ (goExec p q).plainSuccess ∧
          ((goExec p q).plainSuccess = true → (goExec p q).writes = [])) := by
  have key : p.circuitErr = none →
      (obs (goExec p q)).writes.length ≤ 1 ∧
        (obs (goExec p q)).onceDone ≠ (obs (goExec p q)).plainSuccess ∧
          ((obs (goExec p q)).plainSuccess = true →
            (obs (goExec p q)).writes = []) := by
    intro hc
    cases ht : q.timerFires
    · rw [obs_goExec_noTimer p q hc ht]
      by_cases hs : p.sync = true <;>
        (by_cases ha : p.allow = true
         · by_cases hb : 0 < p.poolFreeInit
           · rcases hr : p.runErr with _ | e
             · simp [obs, execActs, insAt, insAt_nil, List.foldl_cons,
                 List.foldl_nil, initS, workerActs, scBlock, rejReport, rejResolve,
                 acquireStep, runStep, postBlock, timeoutBlock, resolveWith,
                 tryFallback, report, send, *]
             · rcases hf : p.fallback with _ | fb
               · simp [obs, execActs, insAt, insAt_nil, List.foldl_cons,
                   List.foldl_nil, initS, workerActs, scBlock, rejReport, rejResolve,
                   acquireStep, runStep, postBlock, timeoutBlock, resolveWith,
                   tryFallback, report, send, *]
               · rcases hw : fb e with _ | w <;>
                   simp [obs, execActs, insAt, insAt_nil, List.foldl_cons,
                     List.foldl_nil, initS, workerActs, scBlock, rejReport, rejResolve,
                     acquireStep, runStep, postBlock, timeoutBlock, resolveWith,
                     tryFallback, report, send, *]
           · rcases hf : p.fallback with _ | fb
             · simp [obs, execActs, insAt, insAt_nil, List.foldl_cons,
                 List.foldl_nil, initS, workerActs, scBlock, rejReport, rejResolve,
                 acquireStep, runStep, postBlock, timeoutBlock, resolveWith,
                 tryFallback, report, send, *]
             · rcases hy : fb GoErr.maxConcurrency with _ | y <;>
                 simp [obs, execActs, insAt, insAt_nil, List.foldl_cons,
                   List.foldl_nil, initS, workerActs, scBlock, rejReport, rejResolve,
                   acquireStep, runStep, postBlock, timeoutBlock, resolveWith,
                   tryFallback, report, send, *]
         · rcases hf : p.fallback with _ | fb
           · simp [obs, execActs, insAt, insAt_nil, List.foldl_cons,
               List.foldl_nil, initS, workerActs, scBlock, rejReport, rejResolve,
               acquireStep, runStep, postBlock, timeoutBlock, resolveWith,
               tryFallback, report, send, *]
           · rcases hx : fb GoErr.circuitOpen with _ | x <;>
               simp [obs, execActs, insAt, insAt_nil, List.foldl_cons,
                 List.foldl_nil, initS, workerActs, scBlock, rejReport, rejResolve,
                 acquireStep, runStep, postBlock, timeoutBlock, resolveWith,
                 tryFallback, report, send, *]
        )
    · rw [obs_goExec_timer p q hc ht]
      generalize hm : min q.i 3 = m
      have hm3 : m ≤ 3 := by rw [← hm]; exact Nat.min_le_right _ _
      interval_cases m <;>
        by_cases hs : p.sync = true <;>
          (by_cases ha : p.allow = true
           · by_cases hb : 0 < p.poolFreeInit
             · rcases hr : p.runErr with _ | e
               · rcases hf : p.fallback with _ | fb
                 · simp [obs, execActs, insAt, insAt_nil, List.foldl_cons,
                     List.foldl_nil, initS, workerActs, scBlock, rejReport, rejResolve,
                     acquireStep, runStep, postBlock, timeoutBlock, resolveWith,
                     tryFallback, report, send, *]
                 · rcases hz : fb GoErr.timedOut with _ | z <;>
                     simp [obs, execActs, insAt, insAt_nil, List.foldl_cons,
                       List.foldl_nil, initS, workerActs, scBlock, rejReport, rejResolve,
                       acquireStep, runStep, postBlock, timeoutBlock, resolveWith,
                       tryFallback, report, send, *]
               · rcases hf : p.fallback with _ | fb
                 · simp [obs, execActs, insAt, insAt_nil, List.foldl_cons,
                     List.foldl_nil, initS, workerActs, scBlock, rejReport, rejResolve,
                     acquireStep, runStep, postBlock, timeoutBlock, resolveWith,
                     tryFallback, report, send, *]
                 · rcases hw : fb e with _ | w <;>
                     rcases hz : fb GoErr.timedOut with _ | z <;>
                     simp [obs, execActs, insAt, insAt_nil, List.foldl_cons,
                       List.foldl_nil, initS, workerActs, scBlock, rejReport, rejResolve,
                       acquireStep, runStep, postBlock, timeoutBlock, resolveWith,
                       tryFallback, report, send, *]
             · rcases hf : p.fallback with _ | fb
               · simp [obs, execActs, insAt, insAt_nil, List.foldl_cons,
                   List.foldl_nil, initS, workerActs, scBlock, rejReport, rejResolve,
                   acquireStep, runStep, postBlock, timeoutBlock, resolveWith,
                   tryFallback, report, send, *]
               · rcases hy : fb GoErr.maxConcurrency with _ | y <;>
                   rcases hz : fb GoErr.timedOut with _ | z <;>
                   simp [obs, execActs, insAt, insAt_nil, List.foldl_cons,
                     List.foldl_nil, initS, workerActs, scBlock, rejReport, rejResolve,
                     acquireStep, runStep, postBlock, timeoutBlock, resolveWith,
                     tryFallback, report, send, *]
           · rcases hf : p.fallback with _ | fb
             · simp [obs, execActs, insAt, insAt_nil, List.foldl_cons,
                 List.foldl_nil, initS, workerActs, scBlock, rejReport, rejResolve,
                 acquireStep, runStep, postBlock, timeoutBlock, resolveWith,
                 tryFallback, report, send, *]
             · rcases hx : fb GoErr.circuitOpen with _ | x <;>
                 rcases hz : fb GoErr.timedOut with _ | z <;>
                 simp [obs, execActs, insAt, insAt_nil, List.foldl_cons,
                   List.foldl_nil, initS, workerActs, scBlock, rejReport, rejResolve,
                   acquireStep, runStep, postBlock, timeoutBlock, resolveWith,
                   tryFallback, report, send, *]
          )
  rcases hc : p.circuitErr with _ | ce
  · exact ⟨(key hc).1, fun _ => ⟨(key hc).2.1, (key hc).2.2⟩⟩
  · unfold goExec
    simp [hc, send, initS]

end Hystrix

namespace Hystrix

theorem report_proj (k : EventKind) (s : S) :
    (report k s).ticket = s.ticket ∧ (report k s).poolFree = s.poolFree ∧
      (report k s).returnCalls = s.returnCalls ∧ (report k s).ranRun = s.ranRun :=
  ⟨rfl, rfl, rfl, rfl⟩

theorem tryFallback_fst_ticket (p : CallParams) (e : GoErr) (s : S) :
    ((tryFallback p e s).1).ticket = s.ticket := by
  unfold tryFallback
  by_cases h : s.onceDone
  · simp [h]
  · rcases hf : p.fallback with _ | fb
    · simp [h, hf]
    · rcases hfe : fb e with _ | x
      · by_cases hs : p.sync <;> simp [h, hf, hfe, hs]
      · simp [h, hf, hfe]

theorem resolveWith_ticket (p : CallParams) (e : GoErr) (s : S) :
    (resolveWith p e s).ticket = s.ticket := by
  have h0 := tryFallback_fst_ticket p e s
  unfold resolveWith
  rcases h : tryFallback p e s with ⟨s1, r⟩
  rw [h] at h0
  cases r <;> simp [send] <;> exact h0

theorem scBlock_ticket (p : CallParams) (s : S) : (scBlock p s).ticket = s.ticket := by
  unfold scBlock
  by_cases h : s.stop
  · simp [h]
  · simp [h, resolveWith_ticket, report]

theorem timeoutBlock_ticket (p : CallParams) (s : S) :
    (timeoutBlock p s).ticket = s.ticket := by
  unfold timeoutBlock
  by_cases h : s.stop
  · simp [h]
  · simp [h, resolveWith_ticket, report]

theorem rejReport_ticket (s : S) : (rejReport s).ticket = s.ticket := rfl

theorem rejResolve_ticket (p : CallParams) (s : S) :
    (rejResolve p s).ticket = s.ticket := resolveWith_ticket p GoErr.maxConcurrency s

theorem postBlock_ticket (p : CallParams) (s : S) : (postBlock p s).ticket = s.ticket := by
  unfold postBlock
  by_cases h : s.stop
  · simp [h]
  · rcases hr : p.runErr with _ | e
    · simp [h, hr, report]
    · have h0 := tryFallback_fst_ticket p e (report EventKind.failure { s with stop := true })
      simp only [h, if_false, hr, Bool.false_eq_true]
      rcases htf : tryFallback p e (report EventKind.failure { s with stop := true })
        with ⟨s1, r⟩
      rw [htf] at h0
      simp only [report] at h0
      cases r <;> simp [report, send] <;> exact h0

theorem tryFallback_fst_poolFree (p : CallParams) (e : GoErr) (s : S) :
    ((tryFallback p e s).1).poolFree = s.poolFree := by
  unfold tryFallback
  by_cases h : s.onceDone
  · simp [h]
  · rcases hf : p.fallback with _ | fb
    · simp [h, hf]
    · rcases hfe : fb e with _ | x
      · by_cases hs : p.sync <;> simp [h, hf, hfe, hs]
      · simp [h, hf, hfe]

theorem resolveWith_poolFree (p : CallParams) (e : GoErr) (s : S) :
    (resolveWith p e s).poolFree = s.poolFree := by
  have h0 := tryFallback_fst_poolFree p e s
  unfold resolveWith
  rcases h : tryFallback p e s with ⟨s1, r⟩
  rw [h] at h0
  cases r <;> simp [send] <;> exact h0

theorem scBlock_poolFree (p : CallParams) (s : S) : (scBlock p s).poolFree = s.poolFree := by
  unfold scBlock
  by_cases h : s.stop
  · simp [h]
  · simp [h, resolveWith_poolFree, report]

theorem timeoutBlock_poolFree (p : CallParams) (s : S) :
    (timeoutBlock p s).poolFree = s.poolFree := by
  unfold timeoutBlock
  by_cases h : s.stop
  · simp [h]
  · simp [h, resolveWith_poolFree, report]

theorem rejReport_poolFree (s : S) : (rejReport s).poolFree = s.poolFree := rfl

theorem rejResolve_poolFree (p : CallParams) (s : S) :
    (rejResolve p s).poolFree = s.poolFree := resolveWith_poolFree p GoErr.maxConcurrency s

theorem postBlock_poolFree (p : CallParams) (s : S) : (postBlock p s).poolFree = s.poolFree := by
  unfold postBlock
  by_cases h : s.stop
  · simp [h]
  · rcases hr : p.runErr with _ | e
    · simp [h, hr, report]
    · have h0 := tryFallback_fst_poolFree p e (report EventKind.failure { s with stop := true })
      simp only [h, if_false, hr, Bool.false_eq_true]
      rcases htf : tryFallback p e (report EventKind.failure { s with stop := true })
        with ⟨s1, r⟩
      rw [htf] at h0
      simp only [report] at h0
      cases r <;> simp [report, send] <;> exact h0

theorem tryFallback_fst_returnCalls (p : CallParams) (e : GoErr) (s : S) :
    ((tryFallback p e s).1).returnCalls = s.returnCalls := by
  unfold tryFallback
  by_cases h : s.onceDone
  · simp [h]
  · rcases hf : p.fallback with _ | fb
    · simp [h, hf]
    · rcases hfe : fb e with _ | x
      · by_cases hs : p.sync <;> simp [h, hf, hfe, hs]
      · simp [h, hf, hfe]

theorem resolveWith_returnCalls (p : CallParams) (e : GoErr) (s : S) :
    (resolveWith p e s).returnCalls = s.returnCalls := by
  have h0 := tryFallback_fst_returnCalls p e s
  unfold resolveWith
  rcases h : tryFallback p e s with ⟨s1, r⟩
  rw [h] at h0
  cases r <;> simp [send] <;> exact h0

theorem scBlock_returnCalls (p : CallParams) (s : S) : (scBlock p s).returnCalls = s.returnCalls := by
  unfold scBlock
  by_cases h : s.stop
  · simp [h]
  · simp [h, resolveWith_returnCalls, report]

theorem timeoutBlock_returnCalls (p : CallParams) (s : S) :
    (timeoutBlock p s).returnCalls = s.returnCalls := by
  unfold timeoutBlock
  by_cases h : s.stop
  · simp [h]
  · simp [h, resolveWith_returnCalls, report]

theorem rejReport_returnCalls (s : S) : (rejReport s).returnCalls = s.returnCalls := rfl

theorem rejResolve_returnCalls (p : CallParams) (s : S) :
    (rejResolve p s).returnCalls = s.returnCalls := resolveWith_returnCalls p GoErr.maxConcurrency s

theorem postBlock_returnCalls (p : CallParams) (s : S) : (postBlock p s).returnCalls = s.returnCalls := by
  unfold postBlock
  by_cases h : s.stop
  · simp [h]
  · rcases hr : p.runErr with _ | e
    · simp [h, hr, report]
    · have h0 := tryFallback_fst_returnCalls p e (report EventKind.failure { s with stop := true })
      simp only [h, if_false, hr, Bool.false_eq_true]
      rcases htf : tryFallback p e (report EventKind.failure { s with stop := true })
        with ⟨s1, r⟩
      rw [htf] at h0
      simp only [report] at h0
      cases r <;> simp [report, send] <;> exact h0

theorem tryFallback_fst_ranRun (p : CallParams) (e : GoErr) (s : S) :
    ((tryFallback p e s).1).ranRun = s.ranRun := by
  unfold tryFallback
  by_cases h : s.onceDone
  · simp [h]
  · rcases hf : p.fallback with _ | fb
    · simp [h, hf]
    · rcases hfe : fb e with _ | x
      · by_cases hs : p.sync <;> simp [h, hf, hfe, hs]
      · simp [h, hf, hfe]

theorem resolveWith_ranRun (p : CallParams) (e : GoErr) (s : S) :
    (resolveWith p e s).ranRun = s.ranRun := by
  have h0 := tryFallback_fst_ranRun p e s
  unfold resolveWith
  rcases h : tryFallback p e s with ⟨s1, r⟩
  rw [h] at h0
  cases r <;> simp [send] <;> exact h0

theorem scBlock_ranRun (p : CallParams) (s : S) : (scBlock p s).ranRun = s.ranRun := by
  unfold scBlock
  by_cases h : s.stop
  · simp [h]
  · simp [h, resolveWith_ranRun, report]

theorem timeoutBlock_ranRun (p : CallParams) (s : S) :
    (timeoutBlock p s).ranRun = s.ranRun := by
  unfold timeoutBlock
  by_cases h : s.stop
  · simp [h]
  · simp [h, resolveWith_ranRun, report]

theorem rejReport_ranRun (s : S) : (rejReport s).ranRun = s.ranRun := rfl

theorem rejResolve_ranRun (p : CallParams) (s : S) :
    (rejResolve p s).ranRun = s.ranRun := resolveWith_ranRun p GoErr.maxConcurrency s

theorem postBlock_ranRun (p : CallParams) (s : S) : (postBlock p s).ranRun = s.ranRun := by
  unfold postBlock
  by_cases h : s.stop
  · simp [h]
  · rcases hr : p.runErr with _ | e
    · simp [h, hr, report]
    · have h0 := tryFallback_fst_ranRun p e (report EventKind.failure { s with stop := true })
      simp only [h, if_false, hr, Bool.false_eq_true]
      rcases htf : tryFallback p e (report EventKind.failure { s with stop := true })
        with ⟨s1, r⟩
      rw [htf] at h0
      simp only [report] at h0
      cases r <;> simp [report, send] <;> exact h0

theorem runStep_ticket (p : CallParams) (s : S) : (runStep p s).ticket = s.ticket := by
  unfold runStep
  by_cases h : p.sync ∧ p.runErr = none <;> simp [h]

theorem runStep_poolFree (p : CallParams) (s : S) : (runStep p s).poolFree = s.poolFree := by
  unfold runStep
  by_cases h : p.sync ∧ p.runErr = none <;> simp [h]

theorem runStep_returnCalls (p : CallParams) (s : S) : (runStep p s).returnCalls = s.returnCalls := by
  unfold runStep
  by_cases h : p.sync ∧ p.runErr = none <;> simp [h]

theorem runStep_ranRun (p : CallParams) (s : S) : (runStep p s).ranRun = true := by
  unfold runStep
  by_cases h : p.sync ∧ p.runErr = none <;> simp [h]

theorem acquireStep_ticket (s : S) :
    (acquireStep s).ticket = if 0 < s.poolFree then true else s.ticket := by
  unfold acquireStep
  by_cases h : 0 < s.poolFree <;> simp [h]

theorem acquireStep_poolFree (s : S) :
    (acquireStep s).poolFree = if 0 < s.poolFree then s.poolFree - 1 else s.poolFree := by
  unfold acquireStep
  by_cases h : 0 < s.poolFree <;> simp [h]

theorem acquireStep_returnCalls (s : S) : (acquireStep s).returnCalls = s.returnCalls := by
  unfold acquireStep
  by_cases h : 0 < s.poolFree <;> simp [h]

theorem acquireStep_ranRun (s : S) : (acquireStep s).ranRun = s.ranRun := by
  unfold acquireStep
  by_cases h : 0 < s.poolFree <;> simp [h]

theorem releaseStep_ticket (s : S) : (releaseStep s).ticket = s.ticket := by
  unfold releaseStep
  by_cases h : s.ticket <;> simp [h]

theorem releaseStep_poolFree (s : S) :
    (releaseStep s).poolFree = if s.ticket then s.poolFree + 1 else s.poolFree := by
  unfold releaseStep
  by_cases h : s.ticket <;> simp [h]

theorem releaseStep_returnCalls (s : S) :
    (releaseStep s).returnCalls = s.returnCalls ++ [s.ticket] := by
  unfold releaseStep
  by_cases h : s.ticket <;> simp [h]

theorem releaseStep_ranRun (s : S) : (releaseStep s).ranRun = s.ranRun := by
  unfold releaseStep
  by_cases h : s.ticket <;> simp [h]

theorem execActs_pres {α : Type} (f : S → α) {l : List (S → S)}
    (hl : ∀ a ∈ l, ∀ s : S, f (a s) = f s) (s : S) : f (execActs l s) = f s := by
  induction l generalizing s with
  | nil => rfl
  | cons b t ih =>
    show f (execActs t (b s)) = f s
    rw [ih (fun a ha => hl a (List.mem_cons_of_mem b ha)) (b s),
      hl b (List.mem_cons_self b t) s]

theorem mem_callActs {p : CallParams} {q : Sched} {a : S → S}
    (h : a ∈ callActs p q) :
    a = timeoutBlock p ∨ a = releaseStep ∨ a ∈ workerActs p := by
  unfold callActs at h
  cases ht : q.timerFires
  · rw [ht] at h
    simp only [Bool.false_eq_true, if_false] at h
    rcases List.mem_append.mp h with h1 | h1
    · exact Or.inr (Or.inr h1)
    · simp at h1
      exact Or.inr (Or.inl h1)
  · rw [ht] at h
    simp only [if_true] at h
    rcases mem_insAt h with h1 | h1
    · exact Or.inr (Or.inl h1)
    · rcases mem_insAt h1 with h2 | h2
      · exact Or.inl h2
      · exact Or.inr (Or.inr h2)

end Hystrix

namespace Hystrix

/-- In a call whose worker takes the short-circuit or the rejected branch,
no action of either goroutine ever touches the worker's `ticket` variable or
runs the wrapped operation, in any interleaving. -/
theorem goExec_no_ticket (p : CallParams) (q : Sched) (hc : p.circuitErr = none)
    (hna : p.allow = false ∨ p.poolFreeInit = 0) :
    (goExec p q).ticket = false ∧ (goExec p q).ranRun = false := by
  unfold goExec
  simp only [hc]
  have hts : ∀ a ∈ callActs p q, ∀ s : S, (a s).ticket = s.ticket := by
    intro a ha s
    rcases mem_callActs ha with h | h | h
    · rw [h]; exact timeoutBlock_ticket p s
    · rw [h]; exact releaseStep_ticket s
    · unfold workerActs at h
      by_cases hA : p.allow
      · have h2 : p.poolFreeInit = 0 := by
          rcases hna with h2 | h2
          · rw [h2] at hA; cases hA
          · exact h2
        simp [hA, h2] at h
        rcases h with h | h
        · rw [h]; exact rejReport_ticket s
        · rw [h]; exact rejResolve_ticket p s
      · simp [hA] at h
        rw [h]; exact scBlock_ticket p s
  have hrr : ∀ a ∈ callActs p q, ∀ s : S, (a s).ranRun = s.ranRun := by
    intro a ha s
    rcases mem_callActs ha with h | h | h
    · rw [h]; exact timeoutBlock_ranRun p s
    · rw [h]; exact releaseStep_ranRun s
    · unfold workerActs at h
      by_cases hA : p.allow
      · have h2 : p.poolFreeInit = 0 := by
          rcases hna with h2 | h2
          · rw [h2] at hA; cases hA
          · exact h2
        simp [hA, h2] at h
        rcases h with h | h
        · rw [h]; exact rejReport_ranRun s
        · rw [h]; exact rejResolve_ranRun p s
      · simp [hA] at h
        rw [h]; exact scBlock_ranRun p s
  exact ⟨(execActs_pres S.ticket hts (initS p)).trans rfl,
    (execActs_pres S.ranRun hrr (initS p)).trans rfl⟩

set_option maxRecDepth 4000 in
/-- C7: when `AllowRequest()` is false the worker neither acquires a ticket
nor runs the operation, and — whenever the deadline has not already resolved
the call (the timer either never fires or fires after the worker's guarded
block) — it reports the short-circuited event and resolves via fallback
with `ErrCircuitOpen`.  When admission succeeds but no ticket is free, the
worker reports `rejected` (in every interleaving: this path takes no guard)
and, when it gets to resolve first, resolves via fallback with
`ErrMaxConcurrency`; it never acquires a ticket nor runs the operation. -/
theorem go_short_circuit_and_rejected (p : CallParams) (q : Sched)
    (hc : p.circuitErr = none) :
    (p.allow = false →
        (goExec p q).ticket = false ∧ (goExec p q).ranRun = false ∧
          ((q.timerFires = true → 1 ≤ q.i) →
            EventKind.shortCircuit ∈ (goExec p q).events ∧
              (goExec p q).onceArg = some GoErr.circuitOpen)) ∧
      (p.allow = true → p.poolFreeInit = 0 →
        (goExec p q).ticket = false ∧ (goExec p q).ranRun = false ∧
          EventKind.rejected ∈ (goExec p q).events ∧
          ((q.timerFires = true → 2 ≤ q.i) →
            (goExec p q).onceArg = some GoErr.maxConcurrency)) := by
  constructor
  · intro ha
    obtain ⟨ht1, ht2⟩ := goExec_no_ticket p q hc (Or.inl ha)
    refine ⟨ht1, ht2, ?_⟩
    intro hwf
    show EventKind.shortCircuit ∈ (obs (goExec p q)).events ∧
      (obs (goExec p q)).onceArg = some GoErr.circuitOpen
    cases ht : q.timerFires
    · rw [obs_goExec_noTimer p q hc ht]
      by_cases hs : p.sync = true <;>
        (rcases hf : p.fallback with _ | fb
         · simp [obs, execActs, insAt, insAt_nil, List.foldl_cons,
             List.foldl_nil, initS, workerActs, scBlock, rejReport, rejResolve,
             acquireStep, runStep, postBlock, timeoutBlock, resolveWith,
             tryFallback, report, send, *]
         · rcases hx : fb GoErr.circuitOpen with _ | x <;>
             simp [obs, execActs, insAt, insAt_nil, List.foldl_cons,
                 List.foldl_nil, initS, workerActs, scBlock, rejReport, rejResolve,
                 acquireStep, runStep, postBlock, timeoutBlock, resolveWith,
                 tryFallback, report, send, *])
    · rw [obs_goExec_timer p q hc ht]
      have h1 : 1 ≤ q.i := hwf ht
      generalize hm : min q.i 3 = m
      have hm1 : 1 ≤ m := by omega
      have hm3 : m ≤ 3 := by omega
      interval_cases m <;>
        (by_cases hs : p.sync = true <;>
          (rcases hf : p.fallback with _ | fb
           · simp [obs, execActs, insAt, insAt_nil, List.foldl_cons,
               List.foldl_nil, initS, workerActs, scBlock, rejReport, rejResolve,
               acquireStep, runStep, postBlock, timeoutBlock, resolveWith,
               tryFallback, report, send, *]
           · rcases hx : fb GoErr.circuitOpen with _ | x <;>
               simp [obs, execActs, insAt, insAt_nil, List.foldl_cons,
                   List.foldl_nil, initS, workerActs, scBlock, rejReport, rejResolve,
                   acquireStep, runStep, postBlock, timeoutBlock, resolveWith,
                   tryFallback, report, send, *]))
  · intro ha hb
    obtain ⟨ht1, ht2⟩ := goExec_no_ticket p q hc (Or.inr hb)
    refine ⟨ht1, ht2, ?_, ?_⟩
    · show EventKind.rejected ∈ (obs (goExec p q)).events
      cases ht : q.timerFires
      · rw [obs_goExec_noTimer p q hc ht]
        by_cases hs : p.sync = true <;>
          (rcases hf : p.fallback with _ | fb
           · simp [obs, execActs, insAt, insAt_nil, List.foldl_cons,
               List.foldl_nil, initS, workerActs, scBlock, rejReport, rejResolve,
               acquireStep, runStep, postBlock, timeoutBlock, resolveWith,
               tryFallback, report, send, *]
           · rcases hy : fb GoErr.maxConcurrency with _ | y <;>
               rcases hz : fb GoErr.timedOut with _ | z <;>
               simp [obs, execActs, insAt, insAt_nil, List.foldl_cons,
                   List.foldl_nil, initS, workerActs, scBlock, rejReport, rejResolve,
                   acquireStep, runStep, postBlock, timeoutBlock, resolveWith,
                   tryFallback, report, send, *])
      · rw [obs_goExec_timer p q hc ht]
        generalize hm : min q.i 3 = m
        have hm3 : m ≤ 3 := by omega
        interval_cases m <;>
          (by_cases hs : p.sync = true <;>
            (rcases hf : p.fallback with _ | fb
             · simp [obs, execActs, insAt, insAt_nil, List.foldl_cons,
                 List.foldl_nil, initS, workerActs, scBlock, rejReport, rejResolve,
                 acquireStep, runStep, postBlock, timeoutBlock, resolveWith,
                 tryFallback, report, send, *]
             · rcases hy : fb GoErr.maxConcurrency with _ | y <;>
                 rcases hz : fb GoErr.timedOut with _ | z <;>
                 simp [obs, execActs, insAt, insAt_nil, List.foldl_cons,
                     List.foldl_nil, initS, workerActs, scBlock, rejReport, rejResolve,
                     acquireStep, runStep, postBlock, timeoutBlock, resolveWith,
                     tryFallback, report, send, *]))
    · intro hwf
      show (obs (goExec p q)).onceArg = some GoErr.maxConcurrency
      cases ht : q.timerFires
      · rw [obs_goExec_noTimer p q hc ht]
        by_cases hs : p.sync = true <;>
          (rcases hf : p.fallback with _ | fb
           · simp [obs, execActs, insAt, insAt_nil, List.foldl_cons,
               List.foldl_nil, initS, workerActs, scBlock, rejReport, rejResolve,
               acquireStep, runStep, postBlock, timeoutBlock, resolveWith,
               tryFallback, report, send, *]
           · rcases hy : fb GoErr.maxConcurrency with _ | y <;>
               simp [obs, execActs, insAt, insAt_nil, List.foldl_cons,
                   List.foldl_nil, initS, workerActs, scBlock, rejReport, rejResolve,
                   acquireStep, runStep, postBlock, timeoutBlock, resolveWith,
                   tryFallback, report, send, *])
      · rw [obs_goExec_timer p q hc ht]
        have h2 : 2 ≤ q.i := hwf ht
        generalize hm : min q.i 3 = m
        have hm2 : 2 ≤ m := by omega
        have hm3 : m ≤ 3 := by omega
        interval_cases m <;>
          (by_cases hs : p.sync = true <;>
            (rcases hf : p.fallback with _ | fb
             · simp [obs, execActs, insAt, insAt_nil, List.foldl_cons,
                 List.foldl_nil, initS, workerActs, scBlock, rejReport, rejResolve,
                 acquireStep, runStep, postBlock, timeoutBlock, resolveWith,
                 tryFallback, report, send, *]
             · rcases hy : fb GoErr.maxConcurrency with _ | y <;>
                 simp [obs, execActs, insAt, insAt_nil, List.foldl_cons,
                     List.foldl_nil, initS, workerActs, scBlock, rejReport, rejResolve,
                     acquireStep, runStep, postBlock, timeoutBlock, resolveWith,
                     tryFallback, report, send, *]))

/-- C7 witness: a concrete short-circuited call (circuit open, no
fallback, timer firing only after the worker's guarded block) really does
report the short-circuited event, resolve with `ErrCircuitOpen`, and touch
neither ticket nor operation. -/
theorem go_short_circuit_and_rejected_witness :
    (goExec ⟨none, false, 1, none, none, false⟩ ⟨true, 1, 0⟩).ticket = false ∧
      (goExec ⟨none, false, 1, none, none, false⟩ ⟨true, 1, 0⟩).ranRun = false ∧
      EventKind.shortCircuit ∈
        (goExec ⟨none, false, 1, none, none, false⟩ ⟨true, 1, 0⟩).events ∧
      (goExec ⟨none, false, 1, none, none, false⟩ ⟨true, 1, 0⟩).onceArg =
        some GoErr.circuitOpen := by
  have h := (go_short_circuit_and_rejected
    ⟨none, false, 1, none, none, false⟩ ⟨true, 1, 0⟩ rfl).1 rfl
  exact ⟨h.1, h.2.1, (h.2.2 (fun _ => by decide)).1, (h.2.2 (fun _ => by decide)).2⟩

end Hystrix

namespace Hystrix

set_option maxRecDepth 4000 in
/-- C5: when the deadline activity resolves the call as timed out (the
timer fires and its guarded block runs before the worker's post-run block,
i.e. before the third worker action) while the operation will return an
error, the call reports `timeout` and resolves via fallback with
`ErrTimeout`; the operation's later failure is discarded — no `failure`
event is ever recorded — and the operation itself still runs to
completion (`ranRun`), since nothing cancels it. -/
theorem go_timeout_discards_late_failure (p : CallParams) (q : Sched)
    (e : GoErr) (hc : p.circuitErr = none) (ha : p.allow = true)
    (hb : 0 < p.poolFreeInit) (hr : p.runErr = some e)
    (ht : q.timerFires = true) (hi : q.i ≤ 2) :
    EventKind.timeoutEv ∈ (goExec p q).events ∧
      EventKind.failure ∉ (goExec p q).events ∧
      (goExec p q).onceArg = some GoErr.timedOut ∧
      (goExec p q).ranRun = true := by
  show EventKind.timeoutEv ∈ (obs (goExec p q)).events ∧
    EventKind.failure ∉ (obs (goExec p q)).events ∧
    (obs (goExec p q)).onceArg = some GoErr.timedOut ∧
    (obs (goExec p q)).ranRun = true
  rw [obs_goExec_timer p q hc ht]
  generalize hm : min q.i 3 = m
  have hm2 : m ≤ 2 := by omega
  interval_cases m <;>
    (by_cases hs : p.sync = true <;>
      (rcases hf : p.fallback with _ | fb
       · simp [obs, execActs, insAt, insAt_nil, List.foldl_cons,
            List.foldl_nil, initS, workerActs, scBlock, rejReport, rejResolve,
            acquireStep, runStep, postBlock, timeoutBlock, resolveWith,
            tryFallback, report, send, Option.toList, onceOutcome, *]
       · rcases hz : fb GoErr.timedOut with _ | z <;>
           simp [obs, execActs, insAt, insAt_nil, List.foldl_cons,
                List.foldl_nil, initS, workerActs, scBlock, rejReport, rejResolve,
                acquireStep, runStep, postBlock, timeoutBlock, resolveWith,
                tryFallback, report, send, Option.toList, onceOutcome, *]))

/-- C5 witness: timer first, operation failing, no fallback. -/
theorem go_timeout_discards_late_failure_witness :
    EventKind.timeoutEv ∈
        (goExec ⟨none, true, 1, some (GoErr.someErr 0), none, false⟩
          ⟨true, 0, 0⟩).events ∧
      EventKind.failure ∉
        (goExec ⟨none, true, 1, some (GoErr.someErr 0), none, false⟩
          ⟨true, 0, 0⟩).events ∧
      (goExec ⟨none, true, 1, some (GoErr.someErr 0), none, false⟩
          ⟨true, 0, 0⟩).onceArg = some GoErr.timedOut ∧
      (goExec ⟨none, true, 1, some (GoErr.someErr 0), none, false⟩
          ⟨true, 0, 0⟩).ranRun = true :=
  go_timeout_discards_late_failure
    ⟨none, true, 1, some (GoErr.someErr 0), none, false⟩ ⟨true, 0, 0⟩
    (GoErr.someErr 0) rfl rfl (by decide) rfl rfl (by decide)

set_option maxRecDepth 4000 in
/-- C10: when the deadline activity resolves the call (timer fires, its
block running before the worker's post-run block) while the operation will
succeed, the later successful completion is silently discarded: no
`success` event is reported, the worker's plain-success resolution never
happens, and the only channel traffic is the timeout resolution's own
outcome (the original `ErrTimeout` without a fallback, nothing or the
composite with one). -/
theorem go_timeout_discards_late_success (p : CallParams) (q : Sched)
    (hc : p.circuitErr = none) (ha : p.allow = true)
    (hb : 0 < p.poolFreeInit) (hr : p.runErr = none)
    (ht : q.timerFires = true) (hi : q.i ≤ 2) :
    EventKind.success ∉ (goExec p q).events ∧
      (goExec p q).plainSuccess = false ∧
      (goExec p q).onceArg = some GoErr.timedOut ∧
      (goExec p q).writes = (onceOutcome p GoErr.timedOut).toList ∧
      (goExec p q).ranRun = true := by
  show EventKind.success ∉ (obs (goExec p q)).events ∧
    (obs (goExec p q)).plainSuccess = false ∧
    (obs (goExec p q)).onceArg = some GoErr.timedOut ∧
    (obs (goExec p q)).writes = (onceOutcome p GoErr.timedOut).toList ∧
    (obs (goExec p q)).ranRun = true
  rw [obs_goExec_timer p q hc ht]
  generalize hm : min q.i 3 = m
  have hm2 : m ≤ 2 := by omega
  interval_cases m <;>
    (by_cases hs : p.sync = true <;>
      (rcases hf : p.fallback with _ | fb
       · simp [obs, execActs, insAt, insAt_nil, List.foldl_cons,
            List.foldl_nil, initS, workerActs, scBlock, rejReport, rejResolve,
            acquireStep, runStep, postBlock, timeoutBlock, resolveWith,
            tryFallback, report, send, Option.toList, onceOutcome, *]
       · rcases hz : fb GoErr.timedOut with _ | z <;>
           simp [obs, execActs, insAt, insAt_nil, List.foldl_cons,
                List.foldl_nil, initS, workerActs, scBlock, rejReport, rejResolve,
                acquireStep, runStep, postBlock, timeoutBlock, resolveWith,
                tryFallback, report, send, Option.toList, onceOutcome, *]))

/-- C10 witness: timer first, operation succeeding late, no fallback. -/
theorem go_timeout_discards_late_success_witness :
    EventKind.success ∉
        (goExec ⟨none, true, 1, none, none, false⟩ ⟨true, 1, 0⟩).events ∧
      (goExec ⟨none, true, 1, none, none, false⟩ ⟨true, 1, 0⟩).plainSuccess =
        false ∧
      (goExec ⟨none, true, 1, none, none, false⟩ ⟨true, 1, 0⟩).onceArg =
        some GoErr.timedOut ∧
      (goExec ⟨none, true, 1, none, none, false⟩ ⟨true, 1, 0⟩).writes =
        (onceOutcome ⟨none, true, 1, none, none, false⟩ GoErr.timedOut).toList ∧
      (goExec ⟨none, true, 1, none, none, false⟩ ⟨true, 1, 0⟩).ranRun = true :=
  go_timeout_discards_late_success ⟨none, true, 1, none, none, false⟩
    ⟨true, 1, 0⟩ rfl rfl (by decide) rfl rfl (by decide)

end Hystrix

namespace Hystrix

set_option maxRecDepth 4000 in
/-- C6: for a command whose operation always fails and whose fallback
always returns nil, the synchronous entry point `Do` returns nil in every
interleaving and under either way its final select can break a tie — the
`done` indicator has been signalled (by the fallback wrapper), nothing was
ever written to the result channel, and the circuit records a
`fallback-success` event for the call. -/
theorem do_fallback_suppresses_error (al : Bool) (pool : Nat) (e : GoErr)
    (q : Sched) (pick : Bool) :
    doSelect pick (goExec ⟨none, al, pool, some e, some (fun _ => none), true⟩ q) = some none ∧
      EventKind.fallbackSuccess ∈ (goExec ⟨none, al, pool, some e, some (fun _ => none), true⟩ q).events := by
  have key : (goExec ⟨none, al, pool, some e, some (fun _ => none), true⟩ q).writes = [] ∧
      1 ≤ (goExec ⟨none, al, pool, some e, some (fun _ => none), true⟩ q).doneSends ∧
      EventKind.fallbackSuccess ∈ (goExec ⟨none, al, pool, some e, some (fun _ => none), true⟩ q).events := by
    show (obs (goExec ⟨none, al, pool, some e, some (fun _ => none), true⟩ q)).writes = [] ∧
      1 ≤ (obs (goExec ⟨none, al, pool, some e, some (fun _ => none), true⟩ q)).doneSends ∧
      EventKind.fallbackSuccess ∈ (obs (goExec ⟨none, al, pool, some e, some (fun _ => none), true⟩ q)).events
    cases ht : q.timerFires
    · rw [obs_goExec_noTimer ⟨none, al, pool, some e, some (fun _ => none), true⟩ q rfl ht]
      by_cases hA : al = true <;> by_cases hB : 0 < pool <;>
        simp [obs, execActs, insAt, insAt_nil, List.foldl_cons,
          List.foldl_nil, initS, workerActs, scBlock, rejReport, rejResolve,
          acquireStep, runStep, postBlock, timeoutBlock, resolveWith,
          tryFallback, report, send, *]
    · rw [obs_goExec_timer ⟨none, al, pool, some e, some (fun _ => none), true⟩ q rfl ht]
      generalize hm : min q.i 3 = m
      have hm3 : m ≤ 3 := by rw [← hm]; exact Nat.min_le_right _ _
      interval_cases m <;>
        (by_cases hA : al = true <;> by_cases hB : 0 < pool <;>
          simp [obs, execActs, insAt, insAt_nil, List.foldl_cons,
            List.foldl_nil, initS, workerActs, scBlock, rejReport, rejResolve,
            acquireStep, runStep, postBlock, timeoutBlock, resolveWith,
            tryFallback, report, send, *])
  obtain ⟨h1, h2, h3⟩ := key
  refine ⟨?_, h3⟩
  rcases hn : (goExec ⟨none, al, pool, some e, some (fun _ => none), true⟩ q).doneSends with _ | d
  · rw [hn] at h2
    omega
  · unfold doSelect
    rw [h1, hn]

/-- C3: first resolution semantics of `tryFallback`: if the once body has
already run, later attempts are a no-op returning nil; on the first attempt
with no fallback the original error is returned unchanged; a fallback
returning nil yields nil and reports `fallback-success`; a failing fallback
yields the composite error naming both the fallback error and the original
cause, reporting `fallback-failure`. -/
theorem tryFallback_first_resolution (p : CallParams) (e : GoErr) (s : S) :
    (s.onceDone = true → tryFallback p e s = (s, none)) ∧
      (s.onceDone = false → p.fallback = none →
        tryFallback p e s =
          ({ s with onceDone := true, onceArg := some e }, some e)) ∧
      (s.onceDone = false → ∀ fb, p.fallback = some fb → fb e = none →
        (tryFallback p e s).1.events = s.events ++ [EventKind.fallbackSuccess] ∧
          (tryFallback p e s).2 = none) ∧
      (s.onceDone = false → ∀ fb fe, p.fallback = some fb → fb e = some fe →
        (tryFallback p e s).1.events = s.events ++ [EventKind.fallbackFailure] ∧
          (tryFallback p e s).2 = some (GoErr.fallbackFailed fe e)) := by
  refine ⟨?_, ?_, ?_, ?_⟩
  · intro h
    simp [tryFallback, h]
  · intro h hf
    simp [tryFallback, h, hf]
  · intro h fb hf hfe
    by_cases hs : p.sync = true <;> simp [tryFallback, h, hf, hfe, hs]
  · intro h fb fe hf hfe
    simp [tryFallback, h, hf, hfe]

/-- C3 witness: a first resolution with no fallback returns exactly the
original error and marks the call resolved. -/
theorem tryFallback_first_resolution_witness :
    tryFallback ⟨none, true, 1, none, none, false⟩ GoErr.circuitOpen
        (initS ⟨none, true, 1, none, none, false⟩) =
      ({ initS ⟨none, true, 1, none, none, false⟩ with
          onceDone := true, onceArg := some GoErr.circuitOpen },
        some GoErr.circuitOpen) :=
  (tryFallback_first_resolution ⟨none, true, 1, none, none, false⟩
    GoErr.circuitOpen (initS ⟨none, true, 1, none, none, false⟩)).2.1 rfl rfl

/-- C1 counterexample: with admission allowed but no free ticket and the
timer firing after the worker's two rejected-path actions, the unguarded
rejected path lets the deadline block also resolve: both `rejected` and
`timeout` primary events are reported for a single call. -/
theorem go_double_primary_report_counterexample :
    (goExec ⟨none, true, 0, none, none, false⟩ ⟨true, 2, 0⟩).events =
      [EventKind.rejected, EventKind.timeoutEv] := by
  decide

/-- C2 counterexample: operation fails, fallback succeeds, no timer: the
worker reports `failure`, the fallback reports `fallback-success`, and the
missing early return lets the worker also report `success` — two primary
outcome events for one call. -/
theorem go_failure_then_success_counterexample :
    (goExec ⟨none, true, 1, some (GoErr.someErr 0), some (fun _ => none), false⟩
        ⟨false, 0, 0⟩).events =
      [EventKind.failure, EventKind.fallbackSuccess, EventKind.success] := by
  decide

/-- C8 counterexample: the timer fires and the deadline's deferred `Return`
runs before the worker's ticket acquisition; the later-acquired ticket is
then never returned — at the end of the complete execution the pool is
permanently down one ticket and the only `Return` call carried nil. -/
theorem go_ticket_leak_counterexample :
    (goExec ⟨none, true, 1, none, none, false⟩ ⟨true, 0, 0⟩).ticket = true ∧
      (goExec ⟨none, true, 1, none, none, false⟩ ⟨true, 0, 0⟩).poolFree = 0 ∧
      (goExec ⟨none, true, 1, none, none, false⟩ ⟨true, 0, 0⟩).returnCalls =
        [false] := by
  decide

/-- C4 witness: a plain-success call delivers nothing and resolves exactly
once. -/
theorem go_result_channel_once_witness :
    (goExec ⟨none, true, 1, none, none, false⟩ ⟨false, 0, 0⟩).writes.length ≤ 1 ∧
      ((goExec ⟨none, true, 1, none, none, false⟩ ⟨false, 0, 0⟩).onceDone ≠
          (goExec ⟨none, true, 1, none, none, false⟩ ⟨false, 0, 0⟩).plainSuccess ∧
        ((goExec ⟨none, true, 1, none, none, false⟩ ⟨false, 0, 0⟩).plainSuccess =
            true →
          (goExec ⟨none, true, 1, none, none, false⟩ ⟨false, 0, 0⟩).writes = [])) := by
  have h := go_result_channel_once ⟨none, true, 1, none, none, false⟩ ⟨false, 0, 0⟩
  exact ⟨h.1, h.2 rfl⟩

end Hystrix

namespace Hystrix

set_option maxRecDepth 4000 in
/-- C9: whenever the circuit lookup succeeds, the deadline activity calls
`executorPool.Return` exactly once before exiting, in every interleaving;
the argument is nil (`false`) precisely when no ticket had been acquired at
that point — on the short-circuit path, on the rejected path, and in the
race where the timer fires and the deferred `Return` runs before the
worker's acquisition — and it is the ticket (`true`) otherwise. -/
theorem go_return_called_once (p : CallParams) (q : Sched)
    (hc : p.circuitErr = none) :
    (goExec p q).returnCalls.length = 1 ∧
      ((p.allow = false ∨ p.poolFreeInit = 0 ∨
          (q.timerFires = true ∧ q.i = 0 ∧ q.k = 0)) →
        (goExec p q).returnCalls = [false]) ∧
      (p.allow = true → 0 < p.poolFreeInit →
        ¬(q.timerFires = true ∧ q.i = 0 ∧ q.k = 0) →
        (goExec p q).returnCalls = [true]) := by
  rw [goExec_clamp p q]
  generalize hm : min q.i 3 = m
  generalize hn : min q.k 4 = n
  have hm3 : m ≤ 3 := by omega
  have hn4 : n ≤ 4 := by omega
  have him : (q.i = 0) = (m = 0) := by
    apply propext
    constructor <;> intro h <;> omega
  have hin : (q.k = 0) = (n = 0) := by
    apply propext
    constructor <;> intro h <;> omega
  rw [him, hin]
  cases ht : q.timerFires
  · by_cases hA : p.allow = true
    · by_cases hB : 0 < p.poolFreeInit
      · simp [goExec, callActs, workerActs, execActs, insAt, insAt_nil,
          List.foldl_cons, List.foldl_nil, initS, scBlock_ticket, scBlock_poolFree,
          scBlock_returnCalls, timeoutBlock_ticket, timeoutBlock_poolFree,
          timeoutBlock_returnCalls, rejReport_ticket, rejReport_poolFree,
          rejReport_returnCalls, rejResolve_ticket, rejResolve_poolFree,
          rejResolve_returnCalls, postBlock_ticket, postBlock_poolFree,
          postBlock_returnCalls, runStep_ticket, runStep_poolFree,
          runStep_returnCalls, acquireStep_ticket, acquireStep_poolFree,
          acquireStep_returnCalls, releaseStep_ticket, releaseStep_poolFree,
          releaseStep_returnCalls, *] <;> omega
      · simp [goExec, callActs, workerActs, execActs, insAt, insAt_nil,
          List.foldl_cons, List.foldl_nil, initS, scBlock_ticket, scBlock_poolFree,
          scBlock_returnCalls, timeoutBlock_ticket, timeoutBlock_poolFree,
          timeoutBlock_returnCalls, rejReport_ticket, rejReport_poolFree,
          rejReport_returnCalls, rejResolve_ticket, rejResolve_poolFree,
          rejResolve_returnCalls, postBlock_ticket, postBlock_poolFree,
          postBlock_returnCalls, runStep_ticket, runStep_poolFree,
          runStep_returnCalls, acquireStep_ticket, acquireStep_poolFree,
          acquireStep_returnCalls, releaseStep_ticket, releaseStep_poolFree,
          releaseStep_returnCalls, *] <;> omega
    · simp [goExec, callActs, workerActs, execActs, insAt, insAt_nil,
        List.foldl_cons, List.foldl_nil, initS, scBlock_ticket, scBlock_poolFree,
        scBlock_returnCalls, timeoutBlock_ticket, timeoutBlock_poolFree,
        timeoutBlock_returnCalls, rejReport_ticket, rejReport_poolFree,
        rejReport_returnCalls, rejResolve_ticket, rejResolve_poolFree,
        rejResolve_returnCalls, postBlock_ticket, postBlock_poolFree,
        postBlock_returnCalls, runStep_ticket, runStep_poolFree,
        runStep_returnCalls, acquireStep_ticket, acquireStep_poolFree,
        acquireStep_returnCalls, releaseStep_ticket, releaseStep_poolFree,
        releaseStep_returnCalls, *] <;> omega
  · interval_cases m <;> interval_cases n <;>
      (by_cases hA : p.allow = true
       · by_cases hB : 0 < p.poolFreeInit
         · simp [goExec, callActs, workerActs, execActs, insAt, insAt_nil,
             List.foldl_cons, List.foldl_nil, initS, scBlock_ticket, scBlock_poolFree,
             scBlock_returnCalls, timeoutBlock_ticket, timeoutBlock_poolFree,
             timeoutBlock_returnCalls, rejReport_ticket, rejReport_poolFree,
             rejReport_returnCalls, rejResolve_ticket, rejResolve_poolFree,
             rejResolve_returnCalls, postBlock_ticket, postBlock_poolFree,
             postBlock_returnCalls, runStep_ticket, runStep_poolFree,
             runStep_returnCalls, acquireStep_ticket, acquireStep_poolFree,
             acquireStep_returnCalls, releaseStep_ticket, releaseStep_poolFree,
             releaseStep_returnCalls, *] <;> omega
         · simp [goExec, callActs, workerActs, execActs, insAt, insAt_nil,
             List.foldl_cons, List.foldl_nil, initS, scBlock_ticket, scBlock_poolFree,
             scBlock_returnCalls, timeoutBlock_ticket, timeoutBlock_poolFree,
             timeoutBlock_returnCalls, rejReport_ticket, rejReport_poolFree,
             rejReport_returnCalls, rejResolve_ticket, rejResolve_poolFree,
             rejResolve_returnCalls, postBlock_ticket, postBlock_poolFree,
             postBlock_returnCalls, runStep_ticket, runStep_poolFree,
             runStep_returnCalls, acquireStep_ticket, acquireStep_poolFree,
             acquireStep_returnCalls, releaseStep_ticket, releaseStep_poolFree,
             releaseStep_returnCalls, *] <;> omega
       · simp [goExec, callActs, workerActs, execActs, insAt, insAt_nil,
           List.foldl_cons, List.foldl_nil, initS, scBlock_ticket, scBlock_poolFree,
           scBlock_returnCalls, timeoutBlock_ticket, timeoutBlock_poolFree,
           timeoutBlock_returnCalls, rejReport_ticket, rejReport_poolFree,
           rejReport_returnCalls, rejResolve_ticket, rejResolve_poolFree,
           rejResolve_returnCalls, postBlock_ticket, postBlock_poolFree,
           postBlock_returnCalls, runStep_ticket, runStep_poolFree,
           runStep_returnCalls, acquireStep_ticket, acquireStep_poolFree,
           acquireStep_returnCalls, releaseStep_ticket, releaseStep_poolFree,
           releaseStep_returnCalls, *] <;> omega)

/-- C9 witness: a plain worker-first call returns its acquired ticket
exactly once. -/
theorem go_return_called_once_witness :
    (goExec ⟨none, true, 1, none, none, false⟩ ⟨false, 0, 0⟩).returnCalls.length =
        1 ∧
      (goExec ⟨none, true, 1, none, none, false⟩ ⟨false, 0, 0⟩).returnCalls =
        [true] := by
  have h := go_return_called_once ⟨none, true, 1, none, none, false⟩
    ⟨false, 0, 0⟩ rfl
  exact ⟨h.1, h.2.2 rfl (by decide) (by simp)⟩

end Hystrix
